import Mathlib

/-!
Verification of the Issa visa-consultant service against its specification.

The development shallowly embeds the Python modules of the repository:
 * `dataset_builder.py` — `Msg`, `Conversation`, `Sample`, `build_samples`;
 * `prompt_store.py` — `Store`, `get_latest_prompt`, `initialize_prompt_if_empty`,
   `save_new_prompt`;
 * `ai_client.py` — `generate_chat_reply`, `improve_prompt_with_editor`,
   with the external LLM call and the JSON library abstracted as parameters;
 * `app.py` — the endpoint handlers and the offline self-learning pipeline.

Python machine-level details that no claim depends on (SQLite connections,
environment lookups, stdout printing) are elided; everything observable that
the claims mention (values returned, rows inserted, errors raised, escaping
exceptions) is modelled explicitly.
-/

set_option linter.unusedVariables false

/-! ### Dataset builder (`dataset_builder.py`)

A raw transcript message carries a `direction` ("in" = client, "out" =
consultant) and a `text`.  Messages whose keys are missing in the Python dicts
are representable by any other direction string, which the code treats the
same way. -/

structure Msg where
  direction : String
  text : String
deriving DecidableEq, Repr

structure Conversation where
  contact_id : String
  scenario : String
  conversation : List Msg
deriving DecidableEq, Repr

structure Sample where
  contact_id : String
  scenario : String
  client_sequence : List String
  consultant_reply : List String
  chat_history : List Msg
deriving DecidableEq, Repr

def isIn (m : Msg) : Bool := m.direction == "in"

def isOut (m : Msg) : Bool := m.direction == "out"

/-- The scanning loop of `build_samples` for a single conversation: `history`
is the running accumulator, the second list the messages not yet scanned.
The two inner `while` loops of the source collecting the consecutive "in" and
"out" messages are `takeWhile`/`dropWhile`. -/
def buildLoop (cid sc : String) : List Msg → List Msg → List Sample
  | _history, [] => []
  | history, m :: rest =>
    if h : isIn m then
      { contact_id := cid, scenario := sc,
        client_sequence := ((m :: rest).takeWhile isIn).map Msg.text,
        consultant_reply := (((m :: rest).dropWhile isIn).takeWhile isOut).map Msg.text,
        chat_history := history } ::
      buildLoop cid sc
        (history ++ (m :: rest).takeWhile isIn ++ ((m :: rest).dropWhile isIn).takeWhile isOut)
        (((m :: rest).dropWhile isIn).dropWhile isOut)
    else
      buildLoop cid sc (history ++ [m]) rest
termination_by _ ms => ms.length
decreasing_by
  · have h1 : (m :: rest).dropWhile isIn = rest.dropWhile isIn :=
      List.dropWhile_cons_of_pos h
    calc (((m :: rest).dropWhile isIn).dropWhile isOut).length
        ≤ ((m :: rest).dropWhile isIn).length :=
          (List.dropWhile_suffix isOut).length_le
      _ = (rest.dropWhile isIn).length := by rw [h1]
      _ ≤ rest.length := (List.dropWhile_suffix isIn).length_le
      _ < (m :: rest).length := by simp
  · simp

/-- `build_samples` from `dataset_builder.py`: concatenation of the per-
conversation scans, each starting from an empty history. -/
def build_samples (conversations : List Conversation) : List Sample :=
  conversations.flatMap (fun c => buildLoop c.contact_id c.scenario [] c.conversation)

/-! #### Specification-level description of `build_samples`

Following the words of the claim: one sample per *maximal run* of consecutive "in"
messages — an index `i` holding an "in" message whose predecessor, if any, is
not "in" — whose `client_sequence` is that run, whose `consultant_reply` is
the immediately following run of "out" messages, and whose `chat_history` is
all messages strictly before index `i`. -/

def isInAt (ms : List Msg) (i : Nat) : Bool :=
  match ms[i]? with
  | some m => isIn m
  | none => false

/-- Index `i` starts a maximal run of consecutive "in" messages. -/
def startsInRun (ms : List Msg) (i : Nat) : Bool :=
  isInAt ms i && (i == 0 || !isInAt ms (i - 1))

def inRunStarts (ms : List Msg) : List Nat :=
  (List.range ms.length).filter (startsInRun ms)

/-- The sample the specification associates with the maximal "in" run starting
at index `i` (with `pre` the messages of earlier conversations-prefix carried
by the scanning loop; `pre = []` at top level). -/
def sampleAt (cid sc : String) (pre : List Msg) (ms : List Msg) (i : Nat) : Sample :=
  { contact_id := cid, scenario := sc,
    client_sequence := ((ms.drop i).takeWhile isIn).map Msg.text,
    consultant_reply := (((ms.drop i).dropWhile isIn).takeWhile isOut).map Msg.text,
    chat_history := pre ++ ms.take i }

/-- Specification version of the per-conversation sample list. -/
def samplesSpec (cid sc : String) (ms : List Msg) : List Sample :=
  (inRunStarts ms).map (sampleAt cid sc [] ms)

/-- Specification version of `build_samples`. -/
def build_samples_spec (conversations : List Conversation) : List Sample :=
  conversations.flatMap (fun c => samplesSpec c.contact_id c.scenario c.conversation)

/-! #### Equivalence of `build_samples` with the run-based specification -/

/-- Run starts computed with an explicit "previous message was in" flag. -/
def runStartsF (prevIn : Bool) : List Msg → List Nat
  | [] => []
  | m :: rest =>
    if isIn m && !prevIn then 0 :: (runStartsF (isIn m) rest).map (· + 1)
    else (runStartsF (isIn m) rest).map (· + 1)

/-- `startsInRun` with the predecessor test replaced by a flag at index 0. -/
def startsF (prevIn : Bool) (ms : List Msg) (i : Nat) : Bool :=
  isInAt ms i && !(if i == 0 then prevIn else isInAt ms (i - 1))

lemma startsF_false (ms : List Msg) (i : Nat) : startsF false ms i = startsInRun ms i := by
  cases i <;> simp [startsF, startsInRun]

lemma startsF_succ (prevIn : Bool) (m : Msg) (rest : List Msg) (i : Nat) :
    startsF prevIn (m :: rest) (i + 1) = startsF (isIn m) rest i := by
  cases i with
  | zero => simp [startsF, isInAt]
  | succ j => simp [startsF, isInAt]

lemma filter_range_startsF (prevIn : Bool) (ms : List Msg) :
    (List.range ms.length).filter (startsF prevIn ms) = runStartsF prevIn ms := by
  induction ms generalizing prevIn with
  | nil => rfl
  | cons m rest ih =>
    rw [List.length_cons, List.range_succ_eq_map, List.filter_cons, List.filter_map]
    have hcomp : (startsF prevIn (m :: rest)) ∘ Nat.succ = startsF (isIn m) rest := by
      funext i; exact startsF_succ prevIn m rest i
    rw [hcomp, ih]
    have h0 : startsF prevIn (m :: rest) 0 = (isIn m && !prevIn) := by
      simp [startsF, isInAt]
    rw [h0]
    by_cases hb : (isIn m && !prevIn) = true
    · simp [runStartsF, hb, Nat.succ_eq_add_one]
    · simp only [Bool.not_eq_true] at hb
      simp [runStartsF, hb, Nat.succ_eq_add_one]

lemma inRunStarts_eq_runStartsF (ms : List Msg) :
    inRunStarts ms = runStartsF false ms := by
  rw [inRunStarts, ← filter_range_startsF false ms]
  congr 1
  funext i
  exact (startsF_false ms i).symm

lemma isIn_eq_false_of_isOut (o : Msg) (h : isOut o = true) : isIn o = false := by
  simp only [isOut, beq_iff_eq] at h
  simp [isIn, h]

lemma isInAt_dropWhile_zero (l : List Msg) : isInAt (l.dropWhile isIn) 0 = false := by
  have h := List.head?_dropWhile_not isIn l
  unfold isInAt
  rw [show ((l.dropWhile isIn)[0]?) = (l.dropWhile isIn).head? from
    (List.head?_eq_getElem? _).symm]
  cases hd : (l.dropWhile isIn).head? with
  | none => rfl
  | some x => rw [hd] at h; simpa using h

lemma runStartsF_flag (ms : List Msg) (h : isInAt ms 0 = false) :
    runStartsF true ms = runStartsF false ms := by
  cases ms with
  | nil => rfl
  | cons m rest =>
    have hm : isIn m = false := by simpa [isInAt] using h
    simp [runStartsF, hm]

lemma runStartsF_in_append (cs l : List Msg) (h : ∀ c ∈ cs, isIn c = true) :
    runStartsF true (cs ++ l) = (runStartsF true l).map (· + cs.length) := by
  induction cs with
  | nil => simp
  | cons c cst ih =>
    have hc : isIn c = true := h c (by simp)
    have ih' := ih (fun x hx => h x (by simp [hx]))
    have hstep : runStartsF true ((c :: cst) ++ l) = (runStartsF true (cst ++ l)).map (· + 1) := by
      simp [runStartsF, hc]
    rw [hstep, ih', List.map_map]
    have harith : ((fun x => x + 1) ∘ fun x => x + cst.length) =
        (fun x => x + (c :: cst).length) := by
      funext i; simp only [Function.comp_apply, List.length_cons]; omega
    rw [harith]

lemma runStartsF_notin_append (os l : List Msg) (hne : os ≠ [])
    (h : ∀ o ∈ os, isIn o = false) (prev : Bool) :
    runStartsF prev (os ++ l) = (runStartsF false l).map (· + os.length) := by
  induction os generalizing prev with
  | nil => cases hne rfl
  | cons o ost ih =>
    have ho : isIn o = false := h o (by simp)
    by_cases h2 : ost = []
    · subst h2
      simp [runStartsF, ho]
    · have ih' := ih h2 (fun x hx => h x (by simp [hx])) false
      have hstep : runStartsF prev ((o :: ost) ++ l) =
          (runStartsF false (ost ++ l)).map (· + 1) := by
        simp [runStartsF, ho]
      rw [hstep, ih', List.map_map]
      have harith : ((fun x => x + 1) ∘ fun x => x + ost.length) =
          (fun x => x + (o :: ost).length) := by
        funext i; simp only [Function.comp_apply, List.length_cons]; omega
      rw [harith]

lemma runStartsF_true_eq (rest : List Msg) :
    runStartsF true rest =
      (runStartsF false ((rest.dropWhile isIn).dropWhile isOut)).map
        (· + ((rest.takeWhile isIn).length + ((rest.dropWhile isIn).takeWhile isOut).length)) := by
  have hin : ∀ c ∈ rest.takeWhile isIn, isIn c = true := fun c hc => List.mem_takeWhile_imp hc
  have step1 : runStartsF true rest =
      (runStartsF true (rest.dropWhile isIn)).map (· + (rest.takeWhile isIn).length) := by
    conv_lhs => rw [← List.takeWhile_append_dropWhile isIn rest]
    exact runStartsF_in_append _ _ hin
  have step2 : runStartsF true (rest.dropWhile isIn) =
      (runStartsF false ((rest.dropWhile isIn).dropWhile isOut)).map
        (· + ((rest.dropWhile isIn).takeWhile isOut).length) := by
    by_cases hos : (rest.dropWhile isIn).takeWhile isOut = []
    · have h1 : (rest.dropWhile isIn).dropWhile isOut = rest.dropWhile isIn := by
        conv_rhs => rw [← List.takeWhile_append_dropWhile isOut (rest.dropWhile isIn)]
        rw [hos, List.nil_append]
      rw [h1, hos]
      have := runStartsF_flag (rest.dropWhile isIn) (isInAt_dropWhile_zero rest)
      simpa using this
    · have hout : ∀ o ∈ (rest.dropWhile isIn).takeWhile isOut, isIn o = false :=
        fun o ho => isIn_eq_false_of_isOut o (List.mem_takeWhile_imp ho)
      conv_lhs => rw [← List.takeWhile_append_dropWhile isOut (rest.dropWhile isIn)]
      exact runStartsF_notin_append _ _ hos hout true
  rw [step1, step2, List.map_map]
  have harith : ((fun x => x + (rest.takeWhile isIn).length) ∘
      fun x => x + ((rest.dropWhile isIn).takeWhile isOut).length) =
      (fun x => x + ((rest.takeWhile isIn).length +
        ((rest.dropWhile isIn).takeWhile isOut).length)) := by
    funext i; simp only [Function.comp_apply]; omega
  rw [harith]

lemma buildLoop_nil (cid sc : String) (pre : List Msg) : buildLoop cid sc pre [] = [] := by
  simp [buildLoop]

lemma buildLoop_cons_in (cid sc : String) (pre : List Msg) (m : Msg) (rest : List Msg)
    (hm : isIn m = true) :
    buildLoop cid sc pre (m :: rest) =
      { contact_id := cid, scenario := sc,
        client_sequence := ((m :: rest).takeWhile isIn).map Msg.text,
        consultant_reply := (((m :: rest).dropWhile isIn).takeWhile isOut).map Msg.text,
        chat_history := pre } ::
      buildLoop cid sc
        (pre ++ (m :: rest).takeWhile isIn ++ ((m :: rest).dropWhile isIn).takeWhile isOut)
        (((m :: rest).dropWhile isIn).dropWhile isOut) := by
  simp [buildLoop, hm]

lemma buildLoop_cons_notin (cid sc : String) (pre : List Msg) (m : Msg) (rest : List Msg)
    (hm : ¬ isIn m = true) :
    buildLoop cid sc pre (m :: rest) = buildLoop cid sc (pre ++ [m]) rest := by
  simp [buildLoop, hm]

lemma sampleAt_append (cid sc : String) (pre a b : List Msg) (i : Nat) :
    sampleAt cid sc pre (a ++ b) (a.length + i) = sampleAt cid sc (pre ++ a) b i := by
  simp [sampleAt, List.drop_append, List.take_append, List.append_assoc]

lemma buildLoop_eq_spec (cid sc : String) :
    ∀ n ms pre, ms.length ≤ n →
      buildLoop cid sc pre ms = (runStartsF false ms).map (sampleAt cid sc pre ms) := by
  intro n
  induction n with
  | zero =>
    intro ms pre h
    have hnil : ms = [] := List.length_eq_zero.mp (Nat.le_zero.mp h)
    subst hnil
    simp [buildLoop_nil, runStartsF]
  | succ n ih =>
    intro ms pre h
    cases ms with
    | nil => simp [buildLoop_nil, runStartsF]
    | cons m rest =>
      by_cases hm : isIn m = true
      · -- a maximal "in" run begins here
        have hdw : (m :: rest).dropWhile isIn = rest.dropWhile isIn :=
          List.dropWhile_cons_of_pos hm
        have htw : (m :: rest).takeWhile isIn = m :: rest.takeWhile isIn :=
          List.takeWhile_cons_of_pos hm
        have hlen : (((m :: rest).dropWhile isIn).dropWhile isOut).length ≤ n := by
          have l1 : (((m :: rest).dropWhile isIn).dropWhile isOut).length ≤
              ((m :: rest).dropWhile isIn).length := (List.dropWhile_suffix isOut).length_le
          have l2 : ((m :: rest).dropWhile isIn).length = (rest.dropWhile isIn).length := by
            rw [hdw]
          have l3 : (rest.dropWhile isIn).length ≤ rest.length :=
            (List.dropWhile_suffix isIn).length_le
          have l4 : rest.length + 1 ≤ n + 1 := by simpa using h
          omega
        have hrs : runStartsF false (m :: rest) =
            0 :: ((runStartsF false (((m :: rest).dropWhile isIn).dropWhile isOut)).map
              (· + ((rest.takeWhile isIn).length +
                (((m :: rest).dropWhile isIn).takeWhile isOut).length))).map (· + 1) := by
          have h0 : runStartsF false (m :: rest) = 0 :: (runStartsF true rest).map (· + 1) := by
            simp [runStartsF, hm]
          rw [h0, runStartsF_true_eq rest, ← hdw]
        rw [buildLoop_cons_in cid sc pre m rest hm, ih _ _ hlen, hrs, List.map_cons,
          List.map_map, List.map_map]
        congr 1
        · simp [sampleAt]
        · congr 1
          funext i
          simp only [Function.comp_apply]
          have e1 : i + ((rest.takeWhile isIn).length +
              (((m :: rest).dropWhile isIn).takeWhile isOut).length) + 1 =
              ((m :: rest).takeWhile isIn ++ ((m :: rest).dropWhile isIn).takeWhile isOut).length
                + i := by
            simp only [List.length_append, htw, List.length_cons]
            omega
          rw [e1]
          have hdecomp : ((m :: rest).takeWhile isIn ++
              ((m :: rest).dropWhile isIn).takeWhile isOut) ++
              (((m :: rest).dropWhile isIn).dropWhile isOut) = m :: rest := by
            rw [List.append_assoc, List.takeWhile_append_dropWhile,
              List.takeWhile_append_dropWhile]
          have hsa := sampleAt_append cid sc pre
            ((m :: rest).takeWhile isIn ++ ((m :: rest).dropWhile isIn).takeWhile isOut)
            (((m :: rest).dropWhile isIn).dropWhile isOut) i
          rw [hdecomp] at hsa
          rw [← List.append_assoc] at hsa
          exact hsa.symm
      · -- consultant-initiated message with no pending "in" run
        have hlen : rest.length ≤ n := by
          have : rest.length + 1 ≤ n + 1 := by simpa using h
          omega
        rw [buildLoop_cons_notin cid sc pre m rest hm, ih _ _ hlen]
        have hm' : isIn m = false := by simpa using hm
        have hrs : runStartsF false (m :: rest) = (runStartsF false rest).map (· + 1) := by
          simp [runStartsF, hm']
        rw [hrs, List.map_map]
        congr 1
        funext i
        simp [Function.comp, sampleAt, List.append_assoc]

lemma build_samples_eq_spec (conversations : List Conversation) :
    build_samples conversations = build_samples_spec conversations := by
  unfold build_samples build_samples_spec
  congr 1
  funext c
  rw [samplesSpec, inRunStarts_eq_runStartsF]
  exact buildLoop_eq_spec c.contact_id c.scenario c.conversation.length c.conversation [] le_rfl

/-- Claim C1: `build_samples` emits exactly one `Sample` per maximal run of
consecutive "in" messages — `client_sequence` the texts of the run in order,
`consultant_reply` the texts of the immediately following maximal run of
"out" messages (empty if none follows), and `chat_history` exactly the
messages of the conversation strictly preceding the run, in order; an "out"
message with no pending "in" run produces no sample and is only appended to
the history.  In particular [in,in,out,in,out,out] yields exactly the two
stated samples and [out,in,out] yields exactly one sample whose chat history
holds the leading "out" message. -/
theorem c1_build_samples_maximal_runs :
    (∀ conversations, build_samples conversations = build_samples_spec conversations)
    ∧ build_samples [⟨"c1", "s", [⟨"in", "msg1"⟩, ⟨"in", "msg2"⟩, ⟨"out", "msg3"⟩,
        ⟨"in", "msg4"⟩, ⟨"out", "msg5"⟩, ⟨"out", "msg6"⟩]⟩] =
      [⟨"c1", "s", ["msg1", "msg2"], ["msg3"], []⟩,
       ⟨"c1", "s", ["msg4"], ["msg5", "msg6"],
         [⟨"in", "msg1"⟩, ⟨"in", "msg2"⟩, ⟨"out", "msg3"⟩]⟩]
    ∧ build_samples [⟨"c2", "s", [⟨"out", "a"⟩, ⟨"in", "b"⟩, ⟨"out", "c"⟩]⟩] =
      [⟨"c2", "s", ["b"], ["c"], [⟨"out", "a"⟩]⟩] := by
  refine ⟨build_samples_eq_spec, ?_, ?_⟩
  · rw [build_samples_eq_spec]
    decide
  · rw [build_samples_eq_spec]
    decide

/-! ### Python string primitives

Python `str.strip()` removes whitespace from both ends; the empty string is
falsy.  We model strings through their character lists. -/

def isWS (c : Char) : Bool := c.isWhitespace

/-- `str.strip()` on the underlying character list. -/
def stripList (l : List Char) : List Char :=
  ((l.dropWhile isWS).reverse.dropWhile isWS).reverse

/-- `str.strip()`. -/
def pystrip (s : String) : String := ⟨stripList s.data⟩

lemma mem_dropWhile_of_neg {c : Char} {l : List Char} (hc : c ∈ l) (hw : isWS c = false) :
    c ∈ l.dropWhile isWS := by
  induction l with
  | nil => cases hc
  | cons a t ih =>
    by_cases ha : isWS a = true
    · rw [List.dropWhile_cons_of_pos ha]
      rcases List.mem_cons.mp hc with rfl | hct
      · rw [ha] at hw; cases hw
      · exact ih hct
    · rw [List.dropWhile_cons_of_neg ha]
      exact hc

lemma stripList_eq_nil_iff (l : List Char) :
    stripList l = [] ↔ ∀ c ∈ l, isWS c = true := by
  constructor
  · intro h c hc
    by_contra hw
    rw [Bool.not_eq_true] at hw
    have h1 : c ∈ l.dropWhile isWS := mem_dropWhile_of_neg hc hw
    unfold stripList at h
    rw [List.reverse_eq_nil_iff, List.dropWhile_eq_nil_iff] at h
    have h2 := h c (by simpa using h1)
    rw [hw] at h2
    cases h2
  · intro h
    unfold stripList
    have h1 : l.dropWhile isWS = [] := List.dropWhile_eq_nil_iff.mpr h
    rw [h1]
    rfl

lemma stripList_ne_nil_of_mem {c : Char} {l : List Char} (hc : c ∈ l) (hw : isWS c = false) :
    stripList l ≠ [] := by
  intro h
  have := (stripList_eq_nil_iff l).mp h c hc
  rw [hw] at this
  cases this

lemma stripList_eq_self {l : List Char} {c d : Char}
    (h1 : l.head? = some c) (hw1 : isWS c = false)
    (h2 : l.getLast? = some d) (hw2 : isWS d = false) :
    stripList l = l := by
  unfold stripList
  have e1 : l.dropWhile isWS = l := by
    cases l with
    | nil => simp at h1
    | cons a t =>
      have ha : a = c := by simpa using h1
      subst ha
      exact List.dropWhile_cons_of_neg (by simp [hw1])
  rw [e1]
  have e2 : l.reverse.dropWhile isWS = l.reverse := by
    cases hr : l.reverse with
    | nil => simp
    | cons a t =>
      have hha : l.reverse.head? = some a := by rw [hr]; rfl
      rw [List.head?_reverse] at hha
      have had : a = d := by rw [hha] at h2; exact Option.some.inj h2
      subst had
      exact List.dropWhile_cons_of_neg (by simp [hw2])
  rw [e2, List.reverse_reverse]

lemma stripList_getLast?_not_ws (l : List Char) (c : Char)
    (h : (stripList l).getLast? = some c) : isWS c = false := by
  unfold stripList at h
  rw [List.getLast?_reverse] at h
  have hh := List.head?_dropWhile_not isWS ((l.dropWhile isWS).reverse)
  rw [h] at hh
  simpa using hh

lemma stripList_head?_not_ws (l : List Char) (c : Char)
    (h : (stripList l).head? = some c) : isWS c = false := by
  unfold stripList at h
  rw [List.head?_reverse] at h
  -- the head of the stripped list is the last element of the inner
  -- `dropWhile`, which by the suffix property is the last element of
  -- `(l.dropWhile isWS).reverse`, i.e. the head of `l.dropWhile isWS`
  obtain ⟨t, ht⟩ := List.dropWhile_suffix (l := (l.dropWhile isWS).reverse) isWS
  have hW : ((l.dropWhile isWS).reverse).getLast? = some c := by
    rw [← ht, List.getLast?_append, h]
    rfl
  rw [List.getLast?_reverse] at hW
  have hh := List.head?_dropWhile_not isWS l
  rw [hW] at hh
  simpa using hh

lemma pystrip_ne_empty_of_mem {c : Char} {s : String} (hc : c ∈ s.data) (hw : isWS c = false) :
    pystrip s ≠ "" := by
  intro h
  have : stripList s.data = [] := congrArg String.data h
  exact stripList_ne_nil_of_mem hc hw this

/-! ### Prompt store (`prompt_store.py`)

The SQLite table `prompts(id autoincrement, version, prompt_text, created_at)`
is modelled as a list of rows in insertion order.  Connection handling and
`_ensure_db` are elided (they only create the empty table).  The current UTC
timestamp is passed in as a parameter `now`.  In the default-prompt literal,
`\x7b`/`\x7d` denote the two brace characters and `\x27` the apostrophe. -/

def DEFAULT_BASE_PROMPT : String := "You are a friendly, human-sounding visa consultant working for Issa Compass.\n\nYour job is to reply to potential customers who are asking about the Thai DTV (Destination Thailand Visa). You:\n- Sound like a real human, not an AI\n- Use casual, warm language similar to WhatsApp or LINE chats\n- Are concise but supportive, and avoid long walls of text\n- Use occasional emojis when they feel natural, but don\x27t overdo it\n- Are always honest about requirements and timelines\n- Clearly explain next steps and gently move high-intent users towards downloading the app, uploading documents, or booking an appointment\n\nYou must ALWAYS respond in JSON format only, with this schema:\n\x7b \"reply\": \"string with your reply message\" \x7d\n\nThe input will contain:\n- clientSequence: the latest 1+ messages from the client\n- chatHistory: a list of earlier messages with roles \"client\" or \"consultant\"\n\nWrite your reply as if you are continuing the same chat thread. Do NOT repeat the client\x27s question verbatim. Keep it natural and tailored to the specific situation."

structure PromptRow where
  version : Nat
  prompt_text : String
  created_at : String
deriving DecidableEq, Repr

/-- The `prompts` table, rows in insertion (autoincrement `id`) order. -/
abbrev Store := List PromptRow

/-- `SELECT COALESCE(MAX(version), 0) FROM prompts` (with the trailing
`or 0` of the source, redundant over COALESCE). -/
def maxVersion : Store → Nat
  | [] => 0
  | r :: rest => max r.version (maxVersion rest)

/-- `SELECT ... ORDER BY version DESC LIMIT 1`: a row of maximal version
(ties broken towards the earlier row; no property proved below depends on
the tie order, which SQLite leaves unspecified). -/
def latestRow : Store → Option PromptRow
  | [] => none
  | r :: rest =>
    match latestRow rest with
    | none => some r
    | some b => if b.version > r.version then some b else some r

/-- `initialize_prompt_if_empty`: seed `(1, DEFAULT_BASE_PROMPT, now)` iff the
table has zero rows. -/
def initialize_prompt_if_empty (now : String) (s : Store) : Store :=
  if s.length = 0 then s ++ [⟨1, DEFAULT_BASE_PROMPT, now⟩] else s

/-- The re-query of `get_latest_prompt` after the seeding attempt:
`row[0] if row and row[0] else DEFAULT_BASE_PROMPT` (empty strings are
falsy in Python). -/
def requeryLatest (s2 : Store) : String :=
  match latestRow s2 with
  | some r2 => if r2.prompt_text ≠ "" then r2.prompt_text else DEFAULT_BASE_PROMPT
  | none => DEFAULT_BASE_PROMPT

/-- `get_latest_prompt`: return the text of the max-version row when truthy,
otherwise seed-if-empty and re-query.  The returned store is the table after
the call. -/
def get_latest_prompt (now : String) (s : Store) : String × Store :=
  match latestRow s with
  | some r =>
    if r.prompt_text ≠ "" then (r.prompt_text, s)
    else (requeryLatest (initialize_prompt_if_empty now s), initialize_prompt_if_empty now s)
  | none =>
    (requeryLatest (initialize_prompt_if_empty now s), initialize_prompt_if_empty now s)

/-- `save_new_prompt`: raise ValueError (modelled as `.error`) on falsy or
all-whitespace input, else insert `(max version + 1, stripped text, now)` and
return the stripped text.  The store component is the table after the call. -/
def save_new_prompt (now new_prompt : String) (s : Store) : Except String String × Store :=
  if new_prompt = "" ∨ pystrip new_prompt = "" then
    (Except.error "new_prompt must be a non-empty string", s)
  else
    (Except.ok (pystrip new_prompt),
      s ++ [⟨maxVersion s + 1, pystrip new_prompt, now⟩])

lemma maxVersion_append (s : Store) (r : PromptRow) :
    maxVersion (s ++ [r]) = max (maxVersion s) r.version := by
  induction s with
  | nil => simp [maxVersion]
  | cons a t ih => simp [maxVersion, ih]; omega

lemma latestRow_append_greater (s : Store) (r : PromptRow) (h : maxVersion s < r.version) :
    latestRow (s ++ [r]) = some r := by
  induction s with
  | nil => rfl
  | cons a t ih =>
    have hmax : maxVersion t < r.version := by
      simp [maxVersion] at h
      omega
    have hav : a.version < r.version := by
      simp [maxVersion] at h
      omega
    show (match latestRow (t ++ [r]) with
      | none => some a
      | some b => if b.version > a.version then some b else some a) = some r
    rw [ih hmax]
    simp [hav]

lemma pystrip_eq_empty_iff (s : String) :
    pystrip s = "" ↔ ∀ c ∈ s.data, isWS c = true := by
  constructor
  · intro h
    apply (stripList_eq_nil_iff s.data).mp
    have h2 : (pystrip s).data = String.data "" := congrArg String.data h
    exact h2
  · intro h
    unfold pystrip
    rw [(stripList_eq_nil_iff s.data).mpr h]

/-- Claim C2: for non-blank text, `save_new_prompt` appends exactly one row
with version `maxVersion + 1` and the stripped text, leaves all previous rows
unchanged, and returns the stripped text; the new maximum version is the old
one plus one. -/
theorem c2_save_new_prompt_inserts (now text : String) (s : Store)
    (h : pystrip text ≠ "") :
    save_new_prompt now text s =
      (Except.ok (pystrip text), s ++ [⟨maxVersion s + 1, pystrip text, now⟩])
    ∧ maxVersion (s ++ [⟨maxVersion s + 1, pystrip text, now⟩]) = maxVersion s + 1 := by
  have hne : ¬(text = "" ∨ pystrip text = "") := by
    rintro (rfl | hh)
    · exact h (by decide)
    · exact h hh
  refine ⟨?_, ?_⟩
  · unfold save_new_prompt
    rw [if_neg hne]
  · rw [maxVersion_append]
    show max (maxVersion s) (maxVersion s + 1) = maxVersion s + 1
    omega

theorem c2_witness :
    pystrip "  New prompt " ≠ "" ∧
    save_new_prompt "t1" "  New prompt " [⟨3, "Old", "t0"⟩] =
      (Except.ok "New prompt", [⟨3, "Old", "t0"⟩, ⟨4, "New prompt", "t1"⟩]) := by
  have h : pystrip "  New prompt " ≠ "" := by decide
  refine ⟨h, ?_⟩
  rw [(c2_save_new_prompt_inserts "t1" "  New prompt " [⟨3, "Old", "t0"⟩] h).1]
  rfl

/-- Claim C3: `save_new_prompt` raises InvalidInput exactly when the text is
empty or all-whitespace, and in that case the store is completely unchanged. -/
theorem c3_save_new_prompt_error_iff (now text : String) (s : Store) :
    ((save_new_prompt now text s).1 =
        Except.error "new_prompt must be a non-empty string"
      ↔ ∀ c ∈ text.data, isWS c = true)
    ∧ ((∀ c ∈ text.data, isWS c = true) → (save_new_prompt now text s).2 = s) := by
  have hiff : (text = "" ∨ pystrip text = "") ↔ (∀ c ∈ text.data, isWS c = true) := by
    constructor
    · rintro (rfl | h2)
      · intro c hc
        exact absurd hc (List.not_mem_nil c)
      · exact (pystrip_eq_empty_iff text).mp h2
    · intro h2
      exact Or.inr ((pystrip_eq_empty_iff text).mpr h2)
  refine ⟨⟨?_, ?_⟩, ?_⟩
  · intro herr
    by_cases hcond : text = "" ∨ pystrip text = ""
    · exact hiff.mp hcond
    · exfalso
      have hsave : save_new_prompt now text s =
          (Except.ok (pystrip text), s ++ [⟨maxVersion s + 1, pystrip text, now⟩]) := by
        unfold save_new_prompt
        rw [if_neg hcond]
      rw [hsave] at herr
      simp at herr
  · intro hall
    unfold save_new_prompt
    rw [if_pos (hiff.mpr hall)]
  · intro hall
    unfold save_new_prompt
    rw [if_pos (hiff.mpr hall)]

theorem c3_witness :
    ((save_new_prompt "t1" "  " [⟨1, "p", "t0"⟩]).1 =
        Except.error "new_prompt must be a non-empty string")
    ∧ (save_new_prompt "t1" "  " [⟨1, "p", "t0"⟩]).2 = [⟨1, "p", "t0"⟩] := by
  have h := c3_save_new_prompt_error_iff "t1" "  " [⟨1, "p", "t0"⟩]
  have hall : ∀ c ∈ ("  " : String).data, isWS c = true := by decide
  exact ⟨h.1.mpr hall, h.2 hall⟩

lemma DEFAULT_BASE_PROMPT_ne_empty : DEFAULT_BASE_PROMPT ≠ "" := by decide

lemma latestRow_nil : latestRow [] = none := rfl

lemma latestRow_some_ne_nil {s : Store} {r : PromptRow} (h : latestRow s = some r) :
    s ≠ [] := by
  intro hs
  subst hs
  simp [latestRow] at h

lemma initialize_of_ne_nil (now : String) (s : Store) (h : s ≠ []) :
    initialize_prompt_if_empty now s = s := by
  unfold initialize_prompt_if_empty
  rw [if_neg]
  simpa using h

lemma get_latest_prompt_truthy (now : String) (s : Store) (r : PromptRow)
    (h : latestRow s = some r) (ht : r.prompt_text ≠ "") :
    get_latest_prompt now s = (r.prompt_text, s) := by
  unfold get_latest_prompt
  rw [h]
  simp [ht]

lemma get_latest_prompt_falsy (now : String) (s : Store) (r : PromptRow)
    (h : latestRow s = some r) (ht : r.prompt_text = "") :
    get_latest_prompt now s = (DEFAULT_BASE_PROMPT, s) := by
  have hs := latestRow_some_ne_nil h
  unfold get_latest_prompt
  rw [h]
  simp only [ht, ne_eq, not_true_eq_false, if_false, ite_false,
    initialize_of_ne_nil now s hs]
  unfold requeryLatest
  rw [h]
  simp [ht]

lemma get_latest_prompt_nil (now : String) :
    get_latest_prompt now [] = (DEFAULT_BASE_PROMPT, [⟨1, DEFAULT_BASE_PROMPT, now⟩]) := by
  unfold get_latest_prompt
  rw [latestRow_nil]
  have hinit : initialize_prompt_if_empty now [] = [⟨1, DEFAULT_BASE_PROMPT, now⟩] := rfl
  rw [hinit]
  unfold requeryLatest
  have hlr : latestRow [(⟨1, DEFAULT_BASE_PROMPT, now⟩ : PromptRow)] =
      some ⟨1, DEFAULT_BASE_PROMPT, now⟩ := rfl
  rw [hlr]
  simp [DEFAULT_BASE_PROMPT_ne_empty]

lemma get_latest_prompt_ne_nil (now : String) (s : Store) :
    (get_latest_prompt now s).2 ≠ [] ∧ (get_latest_prompt now s).1 ≠ "" := by
  cases hl : latestRow s with
  | none =>
    have hs : s = [] := by
      cases s with
      | nil => rfl
      | cons a t =>
        exfalso
        unfold latestRow at hl
        cases h2 : latestRow t with
        | none => rw [h2] at hl; simp at hl
        | some b => rw [h2] at hl; by_cases hb : b.version > a.version <;> simp [hb] at hl
    subst hs
    rw [get_latest_prompt_nil]
    exact ⟨by simp, DEFAULT_BASE_PROMPT_ne_empty⟩
  | some r =>
    by_cases ht : r.prompt_text = ""
    · rw [get_latest_prompt_falsy now s r hl ht]
      exact ⟨latestRow_some_ne_nil hl, DEFAULT_BASE_PROMPT_ne_empty⟩
    · rw [get_latest_prompt_truthy now s r hl ht]
      exact ⟨latestRow_some_ne_nil hl, ht⟩

/-- Claim C4: a first access to an empty store seeds exactly one row, version 1
with the fixed default prompt, and returns that text; a repeated access
returns the same text and leaves the store untouched (this holds for every
store, so in particular after the first access); and after any access the
table is non-empty and the returned prompt is never the empty string. -/
theorem c4_get_latest_prompt_seeds :
    (∀ now, get_latest_prompt now [] =
      (DEFAULT_BASE_PROMPT, [⟨1, DEFAULT_BASE_PROMPT, now⟩]))
    ∧ (∀ now now2 s, get_latest_prompt now2 (get_latest_prompt now s).2 =
        ((get_latest_prompt now s).1, (get_latest_prompt now s).2))
    ∧ (∀ now s, (get_latest_prompt now s).2 ≠ [] ∧ (get_latest_prompt now s).1 ≠ "") := by
  refine ⟨get_latest_prompt_nil, ?_, get_latest_prompt_ne_nil⟩
  intro now now2 s
  cases hl : latestRow s with
  | none =>
    have hs : s = [] := by
      cases s with
      | nil => rfl
      | cons a t =>
        exfalso
        unfold latestRow at hl
        cases h2 : latestRow t with
        | none => rw [h2] at hl; simp at hl
        | some b => rw [h2] at hl; by_cases hb : b.version > a.version <;> simp [hb] at hl
    subst hs
    rw [get_latest_prompt_nil]
    have hlr : latestRow [(⟨1, DEFAULT_BASE_PROMPT, now⟩ : PromptRow)] =
        some ⟨1, DEFAULT_BASE_PROMPT, now⟩ := rfl
    exact get_latest_prompt_truthy now2 _ _ hlr DEFAULT_BASE_PROMPT_ne_empty
  | some r =>
    by_cases ht : r.prompt_text = ""
    · rw [get_latest_prompt_falsy now s r hl ht]
      exact get_latest_prompt_falsy now2 s r hl ht
    · rw [get_latest_prompt_truthy now s r hl ht]
      exact get_latest_prompt_truthy now2 s r hl ht

/-! ### JSON values and the AI client (`ai_client.py`)

JSON values returned by the external LLM.  `jget` is Python dict `.get`
(first binding of the key; the repository never builds duplicate keys).
Because both completion requests set `response_format = json_object`, a
successfully parsed message content is a JSON object, so the JSON library
`json.loads` is abstracted as a parameter
`loads : String → Option JsonObj` (`none` = `json.JSONDecodeError`). -/

inductive Json where
  | null
  | bool (b : Bool)
  | num (n : Int)
  | str (s : String)
  | arr (elems : List Json)
  | obj (fields : List (String × Json))

abbrev JsonObj := List (String × Json)

def jget (fields : JsonObj) (k : String) : Option Json :=
  (fields.find? (fun p => p.1 == k)).map (fun p => p.2)

/-- Outcome of one `chat.completions.create` call: either the call raised
(missing API key or OpenAIError, both becoming `AIClientError`), or it
returned a message whose `content` is `none` or a raw string. -/
inductive LLMOutcome where
  | failure (msg : String)
  | content (c : Option String)

/-- `completion.choices[0].message.content or "{}"` ("\x7b\x7d" is the
two-character string of an opening and a closing brace; Python `or` also
replaces an empty content string). -/
def messageContent (c : Option String) : String :=
  match c with
  | none => "\x7b\x7d"
  | some str => if str = "" then "\x7b\x7d" else str

/-- The source interpolates `{parsed}` into this message; the constant
suffices for every property claimed about it. -/
def missingReplyMsg : String := "Model JSON missing reply field or not a string"

def missingPromptMsg : String := "Editor JSON missing prompt field or not a string"

/-- The parse/validate tail of `generate_chat_reply`: parse the content as
JSON (error mentions the raw content), extract `reply`, require a string. -/
def parseReply (loads : String → Option JsonObj) (message_content : String) :
    Except String String :=
  match loads message_content with
  | none => Except.error ("Model did not return valid JSON. Raw content: " ++ message_content)
  | some parsed =>
    match jget parsed "reply" with
    | some (Json.str r) => Except.ok r
    | _ => Except.error missingReplyMsg

/-- `generate_chat_reply`: fetches the current prompt from the store first
(hence the store component), sends the completion request (its outcome is the
parameter), then parses.  The payload argument of the source only feeds the
request and cannot influence the parse, so it is absorbed by `outcome`. -/
def generate_chat_reply (loads : String → Option JsonObj) (outcome : LLMOutcome)
    (now : String) (s : Store) : Except String String × Store :=
  match outcome with
  | LLMOutcome.failure msg => (Except.error msg, (get_latest_prompt now s).2)
  | LLMOutcome.content c => (parseReply loads (messageContent c), (get_latest_prompt now s).2)

/-- The parse/validate tail of `improve_prompt_with_editor` (field `prompt`). -/
def parsePrompt (loads : String → Option JsonObj) (message_content : String) :
    Except String String :=
  match loads message_content with
  | none =>
    Except.error ("Editor model did not return valid JSON. Raw content: " ++ message_content)
  | some parsed =>
    match jget parsed "prompt" with
    | some (Json.str p) => Except.ok p
    | _ => Except.error missingPromptMsg

/-- `improve_prompt_with_editor`: does not read the store (the existing
prompt is a parameter of the source feeding only the request payload). -/
def improve_prompt_with_editor (loads : String → Option JsonObj) (outcome : LLMOutcome) :
    Except String String :=
  match outcome with
  | LLMOutcome.failure msg => Except.error msg
  | LLMOutcome.content c => parsePrompt loads (messageContent c)

/-! ### HTTP service (`app.py`) -/

/-- A Python exception escaping a handler (Flask then returns an HTML 500
page, not a JSON body). -/
inductive PyError where
  | valueError (msg : String)
  | attributeError
deriving DecidableEq, Repr

/-- A handler outcome: `.ok (status, body)` is a JSON response; `.error` is
an uncaught exception. -/
abbrev HttpResult := Except PyError (Nat × JsonObj)

def err400 (msg : String) : HttpResult := Except.ok (400, [("error", Json.str msg)])

def err500 (msg : String) : HttpResult := Except.ok (500, [("error", Json.str msg)])

def health : Nat × JsonObj := (200, [("status", Json.str "ok")])

/-- One raw `chatHistory` entry (a Python dict). -/
abbrev RawMsg := JsonObj

structure NormMsg where
  role : String
  message : Json

/-- `_normalize_chat_history`: keep entries whose `role` is exactly "client"
or "consultant" (as a JSON string), reshape to role/message pairs with a
missing `message` defaulting to the empty string; other roles are skipped. -/
def _normalize_chat_history : List RawMsg → List NormMsg
  | [] => []
  | msg :: rest =>
    match jget msg "role" with
    | some (Json.str r) =>
      if r = "client" ∨ r = "consultant" then
        ⟨r, (jget msg "message").getD (Json.str "")⟩ :: _normalize_chat_history rest
      else
        _normalize_chat_history rest
    | _ => _normalize_chat_history rest

/-- `msg.get` on a non-dict entry raises AttributeError; extraction of the
entries as dicts succeeds iff every entry is a JSON object. -/
def extractObjList : List Json → Option (List RawMsg)
  | [] => some []
  | Json.obj f :: rest => (extractObjList rest).map (fun l => f :: l)
  | _ => none

/-- `POST /generate-reply`.  `data` is the parsed request object
(`request.get_json(force=True, silent=True) or {}`). -/
def generate_reply_endpoint (loads : String → Option JsonObj) (outcome : LLMOutcome)
    (now : String) (data : JsonObj) (s : Store) : HttpResult × Store :=
  match jget data "clientSequence" with
  | some (Json.str cs) =>
    if pystrip cs = "" then (err400 "clientSequence must be a non-empty string", s)
    else
      match (jget data "chatHistory").getD (Json.arr []) with
      | Json.arr entries =>
        match extractObjList entries with
        | none => (Except.error PyError.attributeError, s)
        | some raws =>
          match generate_chat_reply loads outcome now s with
          | (Except.error e, s1) => (err500 e, s1)
          | (Except.ok reply, s1) => (Except.ok (200, [("aiReply", Json.str reply)]), s1)
      | _ => (err400 "chatHistory must be a list", s)
  | _ => (err400 "clientSequence must be a non-empty string", s)

/-- `POST /improve-ai`: validate, normalize, predict with the current prompt,
fetch the current prompt, run the editor, persist, respond.  A ValueError
from `save_new_prompt` (blank editor output) is not caught. -/
def improve_ai_endpoint (loads : String → Option JsonObj)
    (genOutcome editorOutcome : LLMOutcome) (now : String)
    (data : JsonObj) (s : Store) : HttpResult × Store :=
  match jget data "clientSequence" with
  | some (Json.str cs) =>
    if pystrip cs = "" then (err400 "clientSequence must be a non-empty string", s)
    else
      match jget data "consultantReply" with
      | some (Json.str cr) =>
        if pystrip cr = "" then (err400 "consultantReply must be a non-empty string", s)
        else
          match (jget data "chatHistory").getD (Json.arr []) with
          | Json.arr entries =>
            match extractObjList entries with
            | none => (Except.error PyError.attributeError, s)
            | some raws =>
              match generate_chat_reply loads genOutcome now s with
              | (Except.error e, s1) => (err500 e, s1)
              | (Except.ok predicted, s1) =>
                match improve_prompt_with_editor loads editorOutcome with
                | Except.error e => (err500 e, (get_latest_prompt now s1).2)
                | Except.ok updated =>
                  match save_new_prompt now updated (get_latest_prompt now s1).2 with
                  | (Except.error m, s3) => (Except.error (PyError.valueError m), s3)
                  | (Except.ok _saved, s3) =>
                    (Except.ok (200, [("predictedReply", Json.str predicted),
                      ("updatedPrompt", Json.str updated)]), s3)
          | _ => (err400 "chatHistory must be a list", s)
      | _ => (err400 "consultantReply must be a non-empty string", s)
  | _ => (err400 "clientSequence must be a non-empty string", s)

/-- `POST /improve-ai-manually`: validate `instructions`, fetch the current
prompt, append the fixed heading plus the trimmed instructions, save, and
return the value returned by `save_new_prompt`.  No LLM call. -/
def improve_ai_manually_endpoint (now : String) (data : JsonObj) (s : Store) :
    HttpResult × Store :=
  match jget data "instructions" with
  | some (Json.str instr) =>
    if pystrip instr = "" then (err400 "instructions must be a non-empty string", s)
    else
      match save_new_prompt now
          (pystrip (get_latest_prompt now s).1 ++ "\n\n# Additional manual instructions\n"
            ++ pystrip instr)
          (get_latest_prompt now s).2 with
      | (Except.error m, s2) => (Except.error (PyError.valueError m), s2)
      | (Except.ok updated, s2) => (Except.ok (200, [("updatedPrompt", Json.str updated)]), s2)
  | _ => (err400 "instructions must be a non-empty string", s)

lemma messageContent_some (raw : String) (h : raw ≠ "") : messageContent (some raw) = raw := by
  simp only [messageContent]
  rw [if_neg h]

/-- Claim C5: `generate_chat_reply` treats a missing content as the empty JSON
object; non-JSON content fails with an error carrying the raw content; a
parsed object without a string `reply` fails with InvalidResponse; otherwise
exactly the string value of `reply` is returned.  Consequently
`/generate-reply` answers 200 with `aiReply` for a model output
`(reply: string)` and 500 for `()` or `(reply: 5)`. -/
theorem c5_generate_chat_reply_parsing :
    (∀ (loads : String → Option JsonObj) now s,
      (generate_chat_reply loads (LLMOutcome.content none) now s).1 =
        (generate_chat_reply loads (LLMOutcome.content (some "\x7b\x7d")) now s).1)
    ∧ (∀ (loads : String → Option JsonObj) raw now s, raw ≠ "" → loads raw = none →
        (generate_chat_reply loads (LLMOutcome.content (some raw)) now s).1 =
          Except.error ("Model did not return valid JSON. Raw content: " ++ raw))
    ∧ (∀ (loads : String → Option JsonObj) raw parsed now s, raw ≠ "" →
        loads raw = some parsed →
        (∀ r, jget parsed "reply" ≠ some (Json.str r)) →
        (generate_chat_reply loads (LLMOutcome.content (some raw)) now s).1 =
          Except.error missingReplyMsg)
    ∧ (∀ (loads : String → Option JsonObj) raw parsed r now s, raw ≠ "" →
        loads raw = some parsed → jget parsed "reply" = some (Json.str r) →
        (generate_chat_reply loads (LLMOutcome.content (some raw)) now s).1 = Except.ok r)
    ∧ (∀ (loads : String → Option JsonObj) now data s cs raw reply,
        jget data "clientSequence" = some (Json.str cs) → pystrip cs ≠ "" →
        jget data "chatHistory" = none → raw ≠ "" →
        loads raw = some [("reply", Json.str reply)] →
        (generate_reply_endpoint loads (LLMOutcome.content (some raw)) now data s).1 =
          Except.ok (200, [("aiReply", Json.str reply)]))
    ∧ (∀ (loads : String → Option JsonObj) now data s cs raw,
        jget data "clientSequence" = some (Json.str cs) → pystrip cs ≠ "" →
        jget data "chatHistory" = none → raw ≠ "" →
        loads raw = some [] →
        (generate_reply_endpoint loads (LLMOutcome.content (some raw)) now data s).1 =
          Except.ok (500, [("error", Json.str missingReplyMsg)]))
    ∧ (∀ (loads : String → Option JsonObj) now data s cs raw,
        jget data "clientSequence" = some (Json.str cs) → pystrip cs ≠ "" →
        jget data "chatHistory" = none → raw ≠ "" →
        loads raw = some [("reply", Json.num 5)] →
        (generate_reply_endpoint loads (LLMOutcome.content (some raw)) now data s).1 =
          Except.ok (500, [("error", Json.str missingReplyMsg)])) := by
  refine ⟨?_, ?_, ?_, ?_, ?_, ?_, ?_⟩
  · intro loads now s
    rfl
  · intro loads raw now s hraw hl
    simp only [generate_chat_reply, messageContent_some raw hraw, parseReply, hl]
  · intro loads raw parsed now s hraw hl hnr
    simp only [generate_chat_reply, messageContent_some raw hraw, parseReply, hl]
  · intro loads raw parsed r now s hraw hl hj
    simp only [generate_chat_reply, messageContent_some raw hraw, parseReply, hl, hj]
  · intro loads now data s cs raw reply h1 h2 h3 hraw hl
    have hgen : generate_chat_reply loads (LLMOutcome.content (some raw)) now s =
        (Except.ok reply, (get_latest_prompt now s).2) := by
      simp only [generate_chat_reply, messageContent_some raw hraw, parseReply, hl]
      rfl
    simp [generate_reply_endpoint, h1, h2, h3, extractObjList, hgen]
  · intro loads now data s cs raw h1 h2 h3 hraw hl
    have hgen : generate_chat_reply loads (LLMOutcome.content (some raw)) now s =
        (Except.error missingReplyMsg, (get_latest_prompt now s).2) := by
      simp only [generate_chat_reply, messageContent_some raw hraw, parseReply, hl]
      rfl
    simp [generate_reply_endpoint, h1, h2, h3, extractObjList, hgen, err500]
  · intro loads now data s cs raw h1 h2 h3 hraw hl
    have hgen : generate_chat_reply loads (LLMOutcome.content (some raw)) now s =
        (Except.error missingReplyMsg, (get_latest_prompt now s).2) := by
      simp only [generate_chat_reply, messageContent_some raw hraw, parseReply, hl]
      rfl
    simp [generate_reply_endpoint, h1, h2, h3, extractObjList, hgen, err500]

/-- A concrete fragment of the JSON library for witnesses, defined on the
raw strings the scenarios use ("\x7b\x7d" is the empty-object source text). -/
def loadsTest : String → Option JsonObj := fun s =>
  if s = "A" then some [("reply", Json.str "ok")]
  else if s = "B" then some [("prompt", Json.str "Improved prompt")]
  else if s = "E" then some []
  else if s = "F" then some [("reply", Json.num 5)]
  else if s = "W" then some [("prompt", Json.str "   ")]
  else if s = "U" then some [("prompt", Json.str " New prompt ")]
  else if s = "\x7b\x7d" then some []
  else none

theorem c5_witness :
    (generate_chat_reply loadsTest (LLMOutcome.content none) "t" []).1 =
      (generate_chat_reply loadsTest (LLMOutcome.content (some "\x7b\x7d")) "t" []).1
    ∧ (generate_chat_reply loadsTest (LLMOutcome.content (some "bad")) "t" []).1 =
        Except.error "Model did not return valid JSON. Raw content: bad"
    ∧ (generate_chat_reply loadsTest (LLMOutcome.content (some "E")) "t" []).1 =
        Except.error missingReplyMsg
    ∧ (generate_chat_reply loadsTest (LLMOutcome.content (some "A")) "t" []).1 = Except.ok "ok"
    ∧ (generate_reply_endpoint loadsTest (LLMOutcome.content (some "A")) "t"
        [("clientSequence", Json.str "hi")] []).1 =
        Except.ok (200, [("aiReply", Json.str "ok")])
    ∧ (generate_reply_endpoint loadsTest (LLMOutcome.content (some "E")) "t"
        [("clientSequence", Json.str "hi")] []).1 =
        Except.ok (500, [("error", Json.str missingReplyMsg)])
    ∧ (generate_reply_endpoint loadsTest (LLMOutcome.content (some "F")) "t"
        [("clientSequence", Json.str "hi")] []).1 =
        Except.ok (500, [("error", Json.str missingReplyMsg)]) := by
  obtain ⟨p1, p2, p3, p4, p5, p6, p7⟩ := c5_generate_chat_reply_parsing
  refine ⟨p1 loadsTest "t" [], ?_, ?_, ?_, ?_, ?_, ?_⟩
  · exact p2 loadsTest "bad" "t" [] (by decide) rfl
  · exact p3 loadsTest "E" [] "t" [] (by decide) rfl
      (fun r h => Option.noConfusion h)
  · exact p4 loadsTest "A" [("reply", Json.str "ok")] "ok" "t" [] (by decide) rfl rfl
  · exact p5 loadsTest "t" [("clientSequence", Json.str "hi")] [] "hi" "A" "ok"
      rfl (by decide) rfl (by decide) rfl
  · exact p6 loadsTest "t" [("clientSequence", Json.str "hi")] [] "hi" "E"
      rfl (by decide) rfl (by decide) rfl
  · exact p7 loadsTest "t" [("clientSequence", Json.str "hi")] [] "hi" "F"
      rfl (by decide) rfl (by decide) rfl

/-! ### Normalization spec (claim C6) -/

def isClientOrConsultant (m : RawMsg) : Bool :=
  match jget m "role" with
  | some (Json.str r) => r == "client" || r == "consultant"
  | _ => false

def reshape (m : RawMsg) : NormMsg :=
  { role := match jget m "role" with
      | some (Json.str r) => r
      | _ => ""
    message := (jget m "message").getD (Json.str "") }

lemma normalize_cons (m : RawMsg) (rest : List RawMsg) :
    _normalize_chat_history (m :: rest) =
      if isClientOrConsultant m
      then reshape m :: _normalize_chat_history rest
      else _normalize_chat_history rest := by
  simp only [_normalize_chat_history, isClientOrConsultant, reshape]
  cases hr : jget m "role" with
  | none => simp [hr]
  | some j =>
    cases j with
    | null => simp [hr]
    | bool b => simp [hr]
    | num n => simp [hr]
    | str r =>
      by_cases hc : r = "client" ∨ r = "consultant"
      · have hb : (r == "client" || r == "consultant") = true := by
          rcases hc with rfl | rfl <;> simp
        simp [hr, hc, hb]
      · have hb : (r == "client" || r == "consultant") = false := by
          rcases not_or.mp hc with ⟨hc1, hc2⟩
          simp [hc1, hc2]
        simp [hr, hc, hb]
    | arr es => simp [hr]
    | obj fs => simp [hr]

lemma normalize_eq_filter_map (raw : List RawMsg) :
    _normalize_chat_history raw = (raw.filter isClientOrConsultant).map reshape := by
  induction raw with
  | nil => rfl
  | cons m rest ih =>
    rw [normalize_cons, List.filter_cons]
    cases hb : isClientOrConsultant m <;> simp [hb, ih]

/-- Claim C6: the history normalization used by the endpoints returns exactly the
sublist of entries whose role is the exact string "client" or "consultant",
in order, reshaped to role/message with missing messages defaulting to the
empty string; all other roles are silently dropped — including the concrete
client/bot/consultant example. -/
theorem c6_normalize_chat_history :
    (∀ raw, _normalize_chat_history raw = (raw.filter isClientOrConsultant).map reshape)
    ∧ _normalize_chat_history
        [[("role", Json.str "client"), ("message", Json.str "a")],
         [("role", Json.str "bot"), ("message", Json.str "b")],
         [("role", Json.str "consultant"), ("message", Json.str "c")]] =
      [⟨"client", Json.str "a"⟩, ⟨"consultant", Json.str "c"⟩] := by
  exact ⟨normalize_eq_filter_map, rfl⟩

/-! ### Claim C7: the manual improvement endpoint -/

lemma string_data_append (s t : String) : (s ++ t).data = s.data ++ t.data := rfl

lemma eq_nil_of_latestRow_none {s : Store} (hl : latestRow s = none) : s = [] := by
  cases s with
  | nil => rfl
  | cons a t =>
    exfalso
    unfold latestRow at hl
    cases h2 : latestRow t with
    | none => rw [h2] at hl; simp at hl
    | some b => rw [h2] at hl; by_cases hb : b.version > a.version <;> simp [hb] at hl

lemma get_latest_prompt_store_id (now : String) (s : Store) (h : s ≠ []) :
    (get_latest_prompt now s).2 = s := by
  cases hl : latestRow s with
  | none => exact absurd (eq_nil_of_latestRow_none hl) h
  | some r =>
    by_cases ht : r.prompt_text = ""
    · rw [get_latest_prompt_falsy now s r hl ht]
    · rw [get_latest_prompt_truthy now s r hl ht]

lemma pystrip_manual_update (cur instr : String)
    (hc : pystrip cur ≠ "") (hi : pystrip instr ≠ "") :
    pystrip (pystrip cur ++ "\n\n# Additional manual instructions\n" ++ pystrip instr) =
      pystrip cur ++ "\n\n# Additional manual instructions\n" ++ pystrip instr := by
  have hAne : stripList cur.data ≠ [] := by
    intro h
    apply hc
    show (⟨stripList cur.data⟩ : String) = ""
    rw [h]
  have hBne : stripList instr.data ≠ [] := by
    intro h
    apply hi
    show (⟨stripList instr.data⟩ : String) = ""
    rw [h]
  obtain ⟨c, tA, hcons⟩ : ∃ c t, stripList cur.data = c :: t := by
    cases hA2 : stripList cur.data with
    | nil => exact absurd hA2 hAne
    | cons c t => exact ⟨c, t, rfl⟩
  have hchead : (stripList cur.data).head? = some c := by rw [hcons]; rfl
  have hcws : isWS c = false := stripList_head?_not_ws cur.data c hchead
  obtain ⟨d, hd⟩ : ∃ d, (stripList instr.data).getLast? = some d := by
    cases hgl : (stripList instr.data).getLast? with
    | none => exact absurd (List.getLast?_eq_none_iff.mp hgl) hBne
    | some d => exact ⟨d, rfl⟩
  have hdws : isWS d = false := stripList_getLast?_not_ws instr.data d hd
  have hdata : (pystrip cur ++ "\n\n# Additional manual instructions\n" ++ pystrip instr).data
      = (stripList cur.data ++ ("\n\n# Additional manual instructions\n" : String).data)
          ++ stripList instr.data := rfl
  have hwhole_head : ((stripList cur.data ++ ("\n\n# Additional manual instructions\n" : String).data)
      ++ stripList instr.data).head? = some c := by
    rw [List.head?_append, List.head?_append, hchead]
    rfl
  have hwhole_last : ((stripList cur.data ++ ("\n\n# Additional manual instructions\n" : String).data)
      ++ stripList instr.data).getLast? = some d := by
    rw [List.getLast?_append, hd]
    rfl
  have hL : stripList ((pystrip cur ++ "\n\n# Additional manual instructions\n"
        ++ pystrip instr).data)
      = (pystrip cur ++ "\n\n# Additional manual instructions\n" ++ pystrip instr).data := by
    rw [hdata]
    exact stripList_eq_self hwhole_head hcws hwhole_last hdws
  show (⟨stripList ((pystrip cur ++ "\n\n# Additional manual instructions\n"
      ++ pystrip instr).data)⟩ : String) = _
  rw [hL]

lemma manual_update_save_ok (now cur instr : String) (st : Store) :
    save_new_prompt now
        (pystrip cur ++ "\n\n# Additional manual instructions\n" ++ pystrip instr) st =
      (Except.ok (pystrip (pystrip cur ++ "\n\n# Additional manual instructions\n"
          ++ pystrip instr)),
        st ++ [⟨maxVersion st + 1,
          pystrip (pystrip cur ++ "\n\n# Additional manual instructions\n" ++ pystrip instr),
          now⟩]) := by
  have hmem : '#' ∈ (pystrip cur ++ "\n\n# Additional manual instructions\n"
      ++ pystrip instr).data := by
    rw [string_data_append, string_data_append]
    refine List.mem_append.mpr (Or.inl (List.mem_append.mpr (Or.inr ?_)))
    decide
  have hstrip_ne : pystrip (pystrip cur ++ "\n\n# Additional manual instructions\n"
      ++ pystrip instr) ≠ "" := pystrip_ne_empty_of_mem hmem (by decide)
  have hne : (pystrip cur ++ "\n\n# Additional manual instructions\n" ++ pystrip instr) ≠ "" := by
    intro h
    rw [h] at hmem
    exact absurd hmem (List.not_mem_nil _)
  unfold save_new_prompt
  rw [if_neg (not_or.mpr ⟨hne, hstrip_ne⟩)]

/-- Claim C7 (amended): a request whose `instructions` is missing, not a
string, or blank gets HTTP 400 with an error field and leaves the store
untouched; otherwise — provided the store is non-empty and its current
prompt is not all-whitespace, both guaranteed after any normal first
access — the call increments the stored maximum version by exactly one and
returns exactly the trimmed current prompt followed by the fixed heading and
the trimmed instructions (which is also the text persisted).  On a
completely empty store the version instead jumps from 0 to 2, because the
default prompt is seeded as version 1 before the save (see the
counterexample). -/
theorem c7_improve_ai_manually (now : String) (data : JsonObj) (s : Store) :
    (∀ instr, jget data "instructions" = some (Json.str instr) → pystrip instr = "" →
      improve_ai_manually_endpoint now data s =
        (err400 "instructions must be a non-empty string", s))
    ∧ ((∀ instr, jget data "instructions" ≠ some (Json.str instr)) →
      improve_ai_manually_endpoint now data s =
        (err400 "instructions must be a non-empty string", s))
    ∧ (∀ instr, jget data "instructions" = some (Json.str instr) → pystrip instr ≠ "" →
        s ≠ [] → pystrip ((get_latest_prompt now s).1) ≠ "" →
      improve_ai_manually_endpoint now data s =
        (Except.ok (200, [("updatedPrompt", Json.str (pystrip ((get_latest_prompt now s).1)
            ++ "\n\n# Additional manual instructions\n" ++ pystrip instr))]),
          s ++ [⟨maxVersion s + 1,
            pystrip ((get_latest_prompt now s).1)
              ++ "\n\n# Additional manual instructions\n" ++ pystrip instr, now⟩])
      ∧ maxVersion (s ++ [⟨maxVersion s + 1,
            pystrip ((get_latest_prompt now s).1)
              ++ "\n\n# Additional manual instructions\n" ++ pystrip instr, now⟩])
          = maxVersion s + 1) := by
  refine ⟨?_, ?_, ?_⟩
  · intro instr hj hblank
    simp only [improve_ai_manually_endpoint, hj, hblank]
    simp
  · intro hnostr
    cases hj : jget data "instructions" with
    | none => simp only [improve_ai_manually_endpoint, hj]
    | some j =>
      cases j with
      | str r => exact absurd hj (hnostr r)
      | null => simp only [improve_ai_manually_endpoint, hj]
      | bool b => simp only [improve_ai_manually_endpoint, hj]
      | num n => simp only [improve_ai_manually_endpoint, hj]
      | arr es => simp only [improve_ai_manually_endpoint, hj]
      | obj fs => simp only [improve_ai_manually_endpoint, hj]
  · intro instr hj hni hs hcur
    have hsid : (get_latest_prompt now s).2 = s := get_latest_prompt_store_id now s hs
    have hsave := manual_update_save_ok now ((get_latest_prompt now s).1) instr s
    have heq := pystrip_manual_update ((get_latest_prompt now s).1) instr hcur hni
    rw [heq] at hsave
    constructor
    · simp only [improve_ai_manually_endpoint, hj, hni, ite_false, hsid, hsave]
    · rw [maxVersion_append]
      show max (maxVersion s) (maxVersion s + 1) = maxVersion s + 1
      omega

theorem c7_witness :
    improve_ai_manually_endpoint "t1" [("instructions", Json.str " Be nicer ")]
        [⟨1, "Base prompt", "t0"⟩] =
      (Except.ok (200, [("updatedPrompt",
          Json.str "Base prompt\n\n# Additional manual instructions\nBe nicer")]),
        [⟨1, "Base prompt", "t0"⟩,
         ⟨2, "Base prompt\n\n# Additional manual instructions\nBe nicer", "t1"⟩]) := by
  have h := (c7_improve_ai_manually "t1" [("instructions", Json.str " Be nicer ")]
      [⟨1, "Base prompt", "t0"⟩]).2.2 " Be nicer " rfl (by decide) (by decide) (by decide)
  rw [h.1]
  rfl

set_option maxRecDepth 40000 in
theorem c7_counterexample :
    maxVersion (improve_ai_manually_endpoint "t" [("instructions", Json.str "Be nicer")] []).2
      ≠ maxVersion ([] : Store) + 1 := by
  decide

/-! ### Claim C8: response dichotomy at the HTTP boundary -/

lemma save_new_prompt_ok (now u : String) (st : Store) (hpu : pystrip u ≠ "") :
    save_new_prompt now u st =
      (Except.ok (pystrip u), st ++ [⟨maxVersion st + 1, pystrip u, now⟩]) := by
  have hu : ¬(u = "" ∨ pystrip u = "") := by
    rintro (rfl | h)
    · exact hpu (by decide)
    · exact hpu h
  unfold save_new_prompt
  rw [if_neg hu]

/-- The dichotomy stated by the claim for one endpoint: the response is a JSON response
that is either the declared success object or a single error object. -/
def okShape (r : HttpResult) (success : Nat → JsonObj → Prop) : Prop :=
  ∃ st body, r = Except.ok (st, body) ∧
    (success st body ∨ ∃ msg, body = [("error", Json.str msg)] ∧ (st = 400 ∨ st = 500))

lemma okShape_err400 (msg : String) (success : Nat → JsonObj → Prop) :
    okShape (err400 msg) success :=
  ⟨400, [("error", Json.str msg)], rfl, Or.inr ⟨msg, rfl, Or.inl rfl⟩⟩

lemma okShape_err500 (msg : String) (success : Nat → JsonObj → Prop) :
    okShape (err500 msg) success :=
  ⟨500, [("error", Json.str msg)], rfl, Or.inr ⟨msg, rfl, Or.inr rfl⟩⟩

/-- Claim C8 (amended): provided every `chatHistory` entry is a JSON object
and any successful editor output is not all-whitespace, the response of each
endpoint is a JSON response that is either the full declared success object
or a single object carrying one error message (status 400 or 500); AI Client
failures are converted to the 500 error body.  Without the editor proviso the
dichotomy fails: an all-whitespace editor output makes `save_new_prompt`
raise an uncaught invalid-input error (see the counterexample). -/
theorem c8_endpoints_success_or_error (loads : String → Option JsonObj)
    (outcome genOutcome editorOutcome : LLMOutcome) (now : String)
    (data : JsonObj) (s : Store)
    (hhist : ∀ entries, (jget data "chatHistory").getD (Json.arr []) = Json.arr entries →
      extractObjList entries ≠ none)
    (hedit : ∀ u, improve_prompt_with_editor loads editorOutcome = Except.ok u →
      pystrip u ≠ "") :
    health = (200, [("status", Json.str "ok")])
    ∧ okShape (generate_reply_endpoint loads outcome now data s).1
        (fun st body => st = 200 ∧ ∃ rep, body = [("aiReply", Json.str rep)])
    ∧ okShape (improve_ai_endpoint loads genOutcome editorOutcome now data s).1
        (fun st body => st = 200 ∧ ∃ p u,
          body = [("predictedReply", Json.str p), ("updatedPrompt", Json.str u)])
    ∧ okShape (improve_ai_manually_endpoint now data s).1
        (fun st body => st = 200 ∧ ∃ u, body = [("updatedPrompt", Json.str u)]) := by
  refine ⟨rfl, ?_, ?_, ?_⟩
  · -- /generate-reply
    cases hcs : jget data "clientSequence" with
    | none =>
      simp only [generate_reply_endpoint, hcs]
      exact okShape_err400 _ _
    | some j =>
      cases j with
      | str cs =>
        by_cases hb : pystrip cs = ""
        · simp only [generate_reply_endpoint, hcs, hb, ite_true]
          exact okShape_err400 _ _
        · simp only [generate_reply_endpoint, hcs, hb, ite_false]
          cases hch : (jget data "chatHistory").getD (Json.arr []) with
          | arr entries =>
            cases hext : extractObjList entries with
            | none => exact absurd hext (hhist entries hch)
            | some raws =>
              obtain ⟨eg, s1, hg⟩ : ∃ eg s1, generate_chat_reply loads outcome now s = (eg, s1) :=
                ⟨_, _, rfl⟩
              cases eg with
              | error e =>
                simp only [hext, hg]
                exact okShape_err500 _ _
              | ok reply =>
                simp only [hext, hg]
                exact ⟨200, _, rfl, Or.inl ⟨rfl, reply, rfl⟩⟩
          | null => simp only [generate_reply_endpoint]; exact okShape_err400 _ _
          | bool b => simp only [generate_reply_endpoint]; exact okShape_err400 _ _
          | num n => simp only [generate_reply_endpoint]; exact okShape_err400 _ _
          | str t => simp only [generate_reply_endpoint]; exact okShape_err400 _ _
          | obj fs => simp only [generate_reply_endpoint]; exact okShape_err400 _ _
      | null => simp only [generate_reply_endpoint, hcs]; exact okShape_err400 _ _
      | bool b => simp only [generate_reply_endpoint, hcs]; exact okShape_err400 _ _
      | num n => simp only [generate_reply_endpoint, hcs]; exact okShape_err400 _ _
      | arr es => simp only [generate_reply_endpoint, hcs]; exact okShape_err400 _ _
      | obj fs => simp only [generate_reply_endpoint, hcs]; exact okShape_err400 _ _
  · -- /improve-ai
    cases hcs : jget data "clientSequence" with
    | none =>
      simp only [improve_ai_endpoint, hcs]
      exact okShape_err400 _ _
    | some j =>
      cases j with
      | str cs =>
        by_cases hb : pystrip cs = ""
        · simp only [improve_ai_endpoint, hcs, hb, ite_true]
          exact okShape_err400 _ _
        · cases hcr : jget data "consultantReply" with
          | none =>
            simp only [improve_ai_endpoint, hcs, hb, ite_false, hcr]
            exact okShape_err400 _ _
          | some j2 =>
            cases j2 with
            | str cr =>
              by_cases hb2 : pystrip cr = ""
              · simp only [improve_ai_endpoint, hcs, hb, ite_false, hcr, hb2, ite_true]
                exact okShape_err400 _ _
              · simp only [improve_ai_endpoint, hcs, hb, ite_false, hcr, hb2]
                cases hch : (jget data "chatHistory").getD (Json.arr []) with
                | arr entries =>
                  cases hext : extractObjList entries with
                  | none => exact absurd hext (hhist entries hch)
                  | some raws =>
                    obtain ⟨eg, s1, hg⟩ :
                        ∃ eg s1, generate_chat_reply loads genOutcome now s = (eg, s1) :=
                      ⟨_, _, rfl⟩
                    cases eg with
                    | error e =>
                      simp only [hext, hg]
                      exact okShape_err500 _ _
                    | ok predicted =>
                      cases he : improve_prompt_with_editor loads editorOutcome with
                      | error e =>
                        simp only [hext, hg, he]
                        exact okShape_err500 _ _
                      | ok updated =>
                        have hsave := save_new_prompt_ok now updated
                          ((get_latest_prompt now s1).2) (hedit updated he)
                        simp only [hext, hg, he, hsave]
                        exact ⟨200, _, rfl, Or.inl ⟨rfl, predicted, updated, rfl⟩⟩
                | null => simp only [improve_ai_endpoint, hcs, hb, ite_false, hcr, hb2]
                          exact okShape_err400 _ _
                | bool b2 => simp only [improve_ai_endpoint, hcs, hb, ite_false, hcr, hb2]
                             exact okShape_err400 _ _
                | num n => simp only [improve_ai_endpoint, hcs, hb, ite_false, hcr, hb2]
                           exact okShape_err400 _ _
                | str t => simp only [improve_ai_endpoint, hcs, hb, ite_false, hcr, hb2]
                           exact okShape_err400 _ _
                | obj fs => simp only [improve_ai_endpoint, hcs, hb, ite_false, hcr, hb2]
                            exact okShape_err400 _ _
            | null =>
              simp only [improve_ai_endpoint, hcs, hb, ite_false, hcr]
              exact okShape_err400 _ _
            | bool b2 =>
              simp only [improve_ai_endpoint, hcs, hb, ite_false, hcr]
              exact okShape_err400 _ _
            | num n =>
              simp only [improve_ai_endpoint, hcs, hb, ite_false, hcr]
              exact okShape_err400 _ _
            | arr es =>
              simp only [improve_ai_endpoint, hcs, hb, ite_false, hcr]
              exact okShape_err400 _ _
            | obj fs =>
              simp only [improve_ai_endpoint, hcs, hb, ite_false, hcr]
              exact okShape_err400 _ _
      | null => simp only [improve_ai_endpoint, hcs]; exact okShape_err400 _ _
      | bool b => simp only [improve_ai_endpoint, hcs]; exact okShape_err400 _ _
      | num n => simp only [improve_ai_endpoint, hcs]; exact okShape_err400 _ _
      | arr es => simp only [improve_ai_endpoint, hcs]; exact okShape_err400 _ _
      | obj fs => simp only [improve_ai_endpoint, hcs]; exact okShape_err400 _ _
  · -- /improve-ai-manually
    cases hj : jget data "instructions" with
    | none =>
      simp only [improve_ai_manually_endpoint, hj]
      exact okShape_err400 _ _
    | some j =>
      cases j with
      | str instr =>
        by_cases hb : pystrip instr = ""
        · simp only [improve_ai_manually_endpoint, hj, hb, ite_true]
          exact okShape_err400 _ _
        · have hsave := manual_update_save_ok now ((get_latest_prompt now s).1) instr
            ((get_latest_prompt now s).2)
          simp only [improve_ai_manually_endpoint, hj, hb, ite_false, hsave]
          exact ⟨200, _, rfl, Or.inl ⟨rfl, _, rfl⟩⟩
      | null => simp only [improve_ai_manually_endpoint, hj]; exact okShape_err400 _ _
      | bool b => simp only [improve_ai_manually_endpoint, hj]; exact okShape_err400 _ _
      | num n => simp only [improve_ai_manually_endpoint, hj]; exact okShape_err400 _ _
      | arr es => simp only [improve_ai_manually_endpoint, hj]; exact okShape_err400 _ _
      | obj fs => simp only [improve_ai_manually_endpoint, hj]; exact okShape_err400 _ _

/-- Counterexample to claim C8 as stated: with every request field valid and
both LLM calls succeeding, an all-whitespace editor output makes
`/improve-ai` terminate in an uncaught invalid-input exception — not a JSON
response at all, neither the success object nor a single error object. -/
theorem c8_counterexample :
    (improve_ai_endpoint loadsTest (LLMOutcome.content (some "A"))
        (LLMOutcome.content (some "W")) "t"
        [("clientSequence", Json.str "hi"), ("consultantReply", Json.str "yes")]
        [⟨1, "Base prompt", "t0"⟩]).1 =
      Except.error (PyError.valueError "new_prompt must be a non-empty string") := by
  rfl

theorem c8_witness :
    okShape (generate_reply_endpoint loadsTest (LLMOutcome.content (some "A")) "t"
        [("clientSequence", Json.str "hi"), ("consultantReply", Json.str "yes")]
        [⟨1, "Base prompt", "t0"⟩]).1
      (fun st body => st = 200 ∧ ∃ rep, body = [("aiReply", Json.str rep)])
    ∧ okShape (improve_ai_endpoint loadsTest (LLMOutcome.content (some "A"))
        (LLMOutcome.content (some "B")) "t"
        [("clientSequence", Json.str "hi"), ("consultantReply", Json.str "yes")]
        [⟨1, "Base prompt", "t0"⟩]).1
      (fun st body => st = 200 ∧ ∃ p u,
        body = [("predictedReply", Json.str p), ("updatedPrompt", Json.str u)])
    ∧ okShape (improve_ai_manually_endpoint "t"
        [("clientSequence", Json.str "hi"), ("consultantReply", Json.str "yes")]
        [⟨1, "Base prompt", "t0"⟩]).1
      (fun st body => st = 200 ∧ ∃ u, body = [("updatedPrompt", Json.str u)]) := by
  have hhist : ∀ entries,
      ((jget [("clientSequence", Json.str "hi"), ("consultantReply", Json.str "yes")]
        "chatHistory").getD (Json.arr [])) = Json.arr entries →
      extractObjList entries ≠ none := by
    intro entries he
    have h2 : Json.arr [] = Json.arr entries := he
    injection h2 with h3
    rw [← h3]
    intro hn
    exact Option.noConfusion hn
  have hedit : ∀ u, improve_prompt_with_editor loadsTest (LLMOutcome.content (some "B")) =
      Except.ok u → pystrip u ≠ "" := by
    intro u hu
    have h2 : Except.ok (ε := String) "Improved prompt" = Except.ok u := hu
    injection h2 with h3
    rw [← h3]
    decide
  have h := c8_endpoints_success_or_error loadsTest (LLMOutcome.content (some "A"))
    (LLMOutcome.content (some "A")) (LLMOutcome.content (some "B")) "t"
    [("clientSequence", Json.str "hi"), ("consultantReply", Json.str "yes")]
    [⟨1, "Base prompt", "t0"⟩] hhist hedit
  exact ⟨h.2.1, h.2.2.1, h.2.2.2⟩

/-! ### Offline self-learning pipeline (`run_self_learning_pipeline`, claim C9) -/

inductive LogEntry where
  | updated (idx : Nat) (contact : String)
  | skipped (idx : Nat) (err : String)
deriving DecidableEq, Repr

/-- The per-sample loop of `run_self_learning_pipeline` (1-based `idx` as in
`enumerate(samples, start=1)`): generate (reading the store inside
`generate_chat_reply`), edit, save; an `AIClientError` from either AI call
logs a skip and moves on; a `ValueError` from `save_new_prompt` is not caught
and aborts the run.  The two per-sample LLM outcomes are the oracles
`genO`/`editO`, functions of the sample index. -/
def pipelineLoop (loads : String → Option JsonObj) (genO editO : Nat → LLMOutcome)
    (now : String) : List Sample → Nat → String → Store → List LogEntry →
      Except PyError (String × Store × List LogEntry)
  | [], _, prompt, store, log => Except.ok (prompt, store, log)
  | smp :: rest, idx, prompt, store, log =>
    match generate_chat_reply loads (genO idx) now store with
    | (Except.error e, store1) =>
      pipelineLoop loads genO editO now rest (idx + 1) prompt store1
        (log ++ [LogEntry.skipped idx e])
    | (Except.ok _predicted, store1) =>
      match improve_prompt_with_editor loads (editO idx) with
      | Except.error e =>
        pipelineLoop loads genO editO now rest (idx + 1) prompt store1
          (log ++ [LogEntry.skipped idx e])
      | Except.ok newPrompt =>
        match save_new_prompt now newPrompt store1 with
        | (Except.error m, _store2) => Except.error (PyError.valueError m)
        | (Except.ok _saved, store2) =>
          pipelineLoop loads genO editO now rest (idx + 1) newPrompt store2
            (log ++ [LogEntry.updated idx smp.contact_id])

/-- `run_self_learning_pipeline`: build the samples, truncate to the first
`limit` (no truncation for `None`), initialize the running prompt from the
store, iterate. -/
def run_self_learning_pipeline (loads : String → Option JsonObj)
    (genO editO : Nat → LLMOutcome) (now : String) (limit : Option Nat)
    (conversations : List Conversation) (store : Store) :
    Except PyError (String × Store × List LogEntry) :=
  let samples := build_samples conversations
  let samples2 := match limit with
    | some n => samples.take n
    | none => samples
  pipelineLoop loads genO editO now samples2 1 (get_latest_prompt now store).1
    (get_latest_prompt now store).2 []

/-- The per-sample step stated by the claim: a sample whose two AI calls both succeed has
its resulting prompt persisted immediately (one new max-version row) and
becomes the running prompt; a sample with an AI failure is skipped, leaving
prompt and store unchanged. -/
def selfLearnStep (loads : String → Option JsonObj) (genO editO : Nat → LLMOutcome)
    (now : String) (st : String × Store × List LogEntry) (is : Nat × Sample) :
    String × Store × List LogEntry :=
  match (generate_chat_reply loads (genO is.1) now st.2.1).1 with
  | Except.error e => (st.1, st.2.1, st.2.2 ++ [LogEntry.skipped is.1 e])
  | Except.ok _ =>
    match improve_prompt_with_editor loads (editO is.1) with
    | Except.error e => (st.1, st.2.1, st.2.2 ++ [LogEntry.skipped is.1 e])
    | Except.ok newPrompt =>
      (newPrompt, st.2.1 ++ [⟨maxVersion st.2.1 + 1, pystrip newPrompt, now⟩],
        st.2.2 ++ [LogEntry.updated is.1 is.2.contact_id])

lemma generate_chat_reply_store (loads : String → Option JsonObj) (o : LLMOutcome)
    (now : String) (s : Store) :
    (generate_chat_reply loads o now s).2 = (get_latest_prompt now s).2 := by
  cases o <;> rfl

lemma pipelineLoop_eq_foldl (loads : String → Option JsonObj) (genO editO : Nat → LLMOutcome)
    (now : String)
    (hedit : ∀ i u, improve_prompt_with_editor loads (editO i) = Except.ok u →
      pystrip u ≠ "") :
    ∀ (samples : List Sample) (idx : Nat) (prompt : String) (store : Store)
      (log : List LogEntry), store ≠ [] →
      pipelineLoop loads genO editO now samples idx prompt store log =
        Except.ok (List.foldl (selfLearnStep loads genO editO now) (prompt, store, log)
          (samples.enumFrom idx)) := by
  intro samples
  induction samples with
  | nil => intro idx prompt store log hst; rfl
  | cons smp rest ih =>
    intro idx prompt store log hst
    have hsid : (get_latest_prompt now store).2 = store :=
      get_latest_prompt_store_id now store hst
    have hs2 : (generate_chat_reply loads (genO idx) now store).2 = store := by
      rw [generate_chat_reply_store]
      exact hsid
    cases hg : (generate_chat_reply loads (genO idx) now store).1 with
    | error e =>
      have hfull : generate_chat_reply loads (genO idx) now store = (Except.error e, store) :=
        Prod.ext hg hs2
      have hstep : selfLearnStep loads genO editO now (prompt, store, log) (idx, smp) =
          (prompt, store, log ++ [LogEntry.skipped idx e]) := by
        simp only [selfLearnStep, hg]
      simp only [pipelineLoop, hfull, List.enumFrom_cons, List.foldl_cons, hstep]
      exact ih (idx + 1) prompt store (log ++ [LogEntry.skipped idx e]) hst
    | ok predicted =>
      have hfull : generate_chat_reply loads (genO idx) now store =
          (Except.ok predicted, store) := Prod.ext hg hs2
      cases he : improve_prompt_with_editor loads (editO idx) with
      | error e =>
        have hstep : selfLearnStep loads genO editO now (prompt, store, log) (idx, smp) =
            (prompt, store, log ++ [LogEntry.skipped idx e]) := by
          simp only [selfLearnStep, hg, he]
        simp only [pipelineLoop, hfull, he, List.enumFrom_cons, List.foldl_cons, hstep]
        exact ih (idx + 1) prompt store (log ++ [LogEntry.skipped idx e]) hst
      | ok newPrompt =>
        have hsave := save_new_prompt_ok now newPrompt store (hedit idx newPrompt he)
        have hstep : selfLearnStep loads genO editO now (prompt, store, log) (idx, smp) =
            (newPrompt, store ++ [⟨maxVersion store + 1, pystrip newPrompt, now⟩],
              log ++ [LogEntry.updated idx smp.contact_id]) := by
          simp only [selfLearnStep, hg, he]
        simp only [pipelineLoop, hfull, he, hsave, List.enumFrom_cons, List.foldl_cons, hstep]
        exact ih (idx + 1) newPrompt
          (store ++ [⟨maxVersion store + 1, pystrip newPrompt, now⟩])
          (log ++ [LogEntry.updated idx smp.contact_id]) (by simp)

/-- Claim C9 (amended): with limit N the pipeline processes exactly the first
N built samples (all of them for `None`), in order and starting from the
current stored prompt; each sample whose two AI calls succeed has its
resulting prompt persisted immediately as a new max-version row before the
next sample is touched, and an AI Client failure skips exactly that sample,
the running prompt and store keeping their last values — all provided every
successful editor output is non-blank (a blank one makes `save_new_prompt`
raise an uncaught error that aborts the whole run, see the counterexample). -/
theorem c9_pipeline (loads : String → Option JsonObj) (genO editO : Nat → LLMOutcome)
    (now : String)
    (hedit : ∀ i u, improve_prompt_with_editor loads (editO i) = Except.ok u →
      pystrip u ≠ "") :
    (∀ (n : Nat) conversations store,
      run_self_learning_pipeline loads genO editO now (some n) conversations store =
        Except.ok (List.foldl (selfLearnStep loads genO editO now)
          ((get_latest_prompt now store).1, (get_latest_prompt now store).2, [])
          (((build_samples conversations).take n).enumFrom 1)))
    ∧ (∀ conversations store,
      run_self_learning_pipeline loads genO editO now none conversations store =
        Except.ok (List.foldl (selfLearnStep loads genO editO now)
          ((get_latest_prompt now store).1, (get_latest_prompt now store).2, [])
          ((build_samples conversations).enumFrom 1))) := by
  constructor
  · intro n conversations store
    exact pipelineLoop_eq_foldl loads genO editO now hedit
      ((build_samples conversations).take n) 1 (get_latest_prompt now store).1
      (get_latest_prompt now store).2 [] (get_latest_prompt_ne_nil now store).1
  · intro conversations store
    exact pipelineLoop_eq_foldl loads genO editO now hedit
      (build_samples conversations) 1 (get_latest_prompt now store).1
      (get_latest_prompt now store).2 [] (get_latest_prompt_ne_nil now store).1

/-- Counterexample to claim C9 as stated: both AI calls succeed on the first
sample but the editor output is all-whitespace, so nothing is persisted, the
second sample is never processed, and the whole run aborts with an uncaught
invalid-input error. -/
theorem c9_counterexample :
    run_self_learning_pipeline loadsTest (fun _ => LLMOutcome.content (some "A"))
        (fun _ => LLMOutcome.content (some "W")) "t" (some 20)
        [⟨"cA", "s", [⟨"in", "hello"⟩]⟩, ⟨"cB", "s", [⟨"in", "hi"⟩]⟩]
        [⟨1, "Base prompt", "t0"⟩] =
      Except.error (PyError.valueError "new_prompt must be a non-empty string") := by
  have hbs : build_samples [⟨"cA", "s", [⟨"in", "hello"⟩]⟩, ⟨"cB", "s", [⟨"in", "hi"⟩]⟩] =
      [⟨"cA", "s", ["hello"], [], []⟩, ⟨"cB", "s", ["hi"], [], []⟩] := by
    rw [build_samples_eq_spec]
    decide
  simp only [run_self_learning_pipeline, hbs]
  rfl

theorem c9_witness :
    run_self_learning_pipeline loadsTest (fun _ => LLMOutcome.content (some "A"))
        (fun _ => LLMOutcome.content (some "B")) "t" (some 20)
        [⟨"cA", "s", [⟨"in", "hello"⟩]⟩, ⟨"cB", "s", [⟨"in", "hi"⟩]⟩]
        [⟨1, "Base prompt", "t0"⟩] =
      Except.ok ("Improved prompt",
        [⟨1, "Base prompt", "t0"⟩, ⟨2, "Improved prompt", "t"⟩, ⟨3, "Improved prompt", "t"⟩],
        [LogEntry.updated 1 "cA", LogEntry.updated 2 "cB"]) := by
  have hedit : ∀ (i : Nat) (u : String), improve_prompt_with_editor loadsTest
      (LLMOutcome.content (some "B")) = Except.ok u → pystrip u ≠ "" := by
    intro i u hu
    have h2 : Except.ok (ε := String) "Improved prompt" = Except.ok u := hu
    injection h2 with h3
    rw [← h3]
    decide
  have h := (c9_pipeline loadsTest (fun _ => LLMOutcome.content (some "A"))
    (fun _ => LLMOutcome.content (some "B")) "t" hedit).1 20
    [⟨"cA", "s", [⟨"in", "hello"⟩]⟩, ⟨"cB", "s", [⟨"in", "hi"⟩]⟩]
    [⟨1, "Base prompt", "t0"⟩]
  rw [h]
  have hbs : build_samples [⟨"cA", "s", [⟨"in", "hello"⟩]⟩, ⟨"cB", "s", [⟨"in", "hi"⟩]⟩] =
      [⟨"cA", "s", ["hello"], [], []⟩, ⟨"cB", "s", ["hi"], [], []⟩] := by
    rw [build_samples_eq_spec]
    decide
  rw [hbs]
  rfl

/-! ### Claim C10: verbatim vs. trimmed updated prompt -/

/-- The text of the current (max-version) row. -/
def latestText (s : Store) : Option String := (latestRow s).map PromptRow.prompt_text

/-- Claim C10 (implicit): on a successful `/improve-ai` the returned
`updatedPrompt` is the editor output verbatim (untrimmed) while the store
persists its whitespace-trimmed form, so whenever the editor output carries
surrounding whitespace the returned text differs from the latest stored
prompt; the manual endpoint instead returns exactly the value
`save_new_prompt` returns, which is the trimmed text it stored. -/
theorem c10_updated_prompt_untrimmed (loads : String → Option JsonObj)
    (genOutcome editorOutcome : LLMOutcome) (now : String) (data : JsonObj) (s : Store)
    (cs cr p u : String)
    (h1 : jget data "clientSequence" = some (Json.str cs)) (h2 : pystrip cs ≠ "")
    (h3 : jget data "consultantReply" = some (Json.str cr)) (h4 : pystrip cr ≠ "")
    (h5 : jget data "chatHistory" = none)
    (hg : generate_chat_reply loads genOutcome now s =
      (Except.ok p, (get_latest_prompt now s).2))
    (he : improve_prompt_with_editor loads editorOutcome = Except.ok u)
    (hu : pystrip u ≠ "") :
    ((improve_ai_endpoint loads genOutcome editorOutcome now data s).1 =
      Except.ok (200, [("predictedReply", Json.str p), ("updatedPrompt", Json.str u)]))
    ∧ latestText (improve_ai_endpoint loads genOutcome editorOutcome now data s).2 =
        some (pystrip u)
    ∧ (u ≠ pystrip u → Json.str u ≠ Json.str (pystrip u))
    ∧ (∀ now2 data2 s2 instr, jget data2 "instructions" = some (Json.str instr) →
        pystrip instr ≠ "" →
        ∃ v, (improve_ai_manually_endpoint now2 data2 s2).1 =
            Except.ok (200, [("updatedPrompt", Json.str v)])
          ∧ latestText (improve_ai_manually_endpoint now2 data2 s2).2 = some v) := by
  have hsave := save_new_prompt_ok now u
    ((get_latest_prompt now ((get_latest_prompt now s).2)).2) hu
  have hend : improve_ai_endpoint loads genOutcome editorOutcome now data s =
      (Except.ok (200, [("predictedReply", Json.str p), ("updatedPrompt", Json.str u)]),
        (get_latest_prompt now ((get_latest_prompt now s).2)).2
          ++ [⟨maxVersion (get_latest_prompt now ((get_latest_prompt now s).2)).2 + 1,
              pystrip u, now⟩]) := by
    simp only [improve_ai_endpoint, h1, h2, h3, h4, h5, Option.getD_none, extractObjList,
      hg, he, hsave, ite_false]
  refine ⟨?_, ?_, ?_, ?_⟩
  · rw [hend]
  · rw [hend]
    unfold latestText
    rw [latestRow_append_greater _ _ (Nat.lt_succ_self _)]
    rfl
  · intro hne hcontra
    injection hcontra with h7
    exact hne h7
  · intro now2 data2 s2 instr hj hni
    have hsave2 := manual_update_save_ok now2 ((get_latest_prompt now2 s2).1) instr
      ((get_latest_prompt now2 s2).2)
    refine ⟨pystrip (pystrip ((get_latest_prompt now2 s2).1)
        ++ "\n\n# Additional manual instructions\n" ++ pystrip instr), ?_, ?_⟩
    · simp only [improve_ai_manually_endpoint, hj, hni, ite_false, hsave2]
    · simp only [improve_ai_manually_endpoint, hj, hni, ite_false, hsave2]
      unfold latestText
      rw [latestRow_append_greater _ _ (Nat.lt_succ_self _)]
      rfl

theorem c10_witness :
    ((improve_ai_endpoint loadsTest (LLMOutcome.content (some "A"))
        (LLMOutcome.content (some "U")) "t"
        [("clientSequence", Json.str "hi"), ("consultantReply", Json.str "yes")]
        [⟨1, "Base prompt", "t0"⟩]).1 =
      Except.ok (200, [("predictedReply", Json.str "ok"),
        ("updatedPrompt", Json.str " New prompt ")]))
    ∧ latestText (improve_ai_endpoint loadsTest (LLMOutcome.content (some "A"))
        (LLMOutcome.content (some "U")) "t"
        [("clientSequence", Json.str "hi"), ("consultantReply", Json.str "yes")]
        [⟨1, "Base prompt", "t0"⟩]).2 = some "New prompt"
    ∧ Json.str " New prompt " ≠ Json.str (pystrip " New prompt ") := by
  have h := c10_updated_prompt_untrimmed loadsTest (LLMOutcome.content (some "A"))
    (LLMOutcome.content (some "U")) "t"
    [("clientSequence", Json.str "hi"), ("consultantReply", Json.str "yes")]
    [⟨1, "Base prompt", "t0"⟩] "hi" "yes" "ok" " New prompt "
    rfl (by decide) rfl (by decide) rfl rfl rfl (by decide)
  refine ⟨h.1, ?_, h.2.2.1 (by decide)⟩
  rw [h.2.1]
  rfl

theorem c1_witness :
    build_samples [⟨"c3", "s", [⟨"in", "x"⟩, ⟨"out", "y"⟩]⟩] =
      build_samples_spec [⟨"c3", "s", [⟨"in", "x"⟩, ⟨"out", "y"⟩]⟩] :=
  c1_build_samples_maximal_runs.1 [⟨"c3", "s", [⟨"in", "x"⟩, ⟨"out", "y"⟩]⟩]

theorem c4_witness :
    get_latest_prompt "tw" [] = (DEFAULT_BASE_PROMPT, [⟨1, DEFAULT_BASE_PROMPT, "tw"⟩]) :=
  c4_get_latest_prompt_seeds.1 "tw"

theorem c6_witness :
    _normalize_chat_history [[("role", Json.str "client"), ("message", Json.str "a")]] =
      ([[("role", Json.str "client"), ("message", Json.str "a")]].filter
        isClientOrConsultant).map reshape :=
  c6_normalize_chat_history.1 [[("role", Json.str "client"), ("message", Json.str "a")]]
